import Mathlib

/-!
Verification of the attribution reconciliation engine in
`src/attribution_report.py`.

The embedding models the Python data values exactly where the decision
logic lives: strings are `String`, Python floats that hold exact decimal
vendor data are `ℚ`, pandas DataFrames are `Frame` (a column-name list
plus rows of column/value bindings, a missing binding standing for a NaN
cell), and code that can raise is `Except String`.
-/

namespace AttributionReport

/-! ### Python string primitives

Models of `str.strip`, `str.lower`, the `in` substring test and `float()`
as used by the report script. Characters are handled as `List Char` so
that every operation reduces in the kernel. -/

/-- Python `str.strip()` whitespace class (ASCII subset). -/
def isPySpace (c : Char) : Bool :=
  c == ' ' || c == '\t' || c == '\n' || c == '\r' || c == '\x0b' || c == '\x0c'

/-- Python `str.strip()`. -/
def pyStrip (l : List Char) : List Char :=
  ((l.dropWhile isPySpace).reverse.dropWhile isPySpace).reverse

/-- Python `str.lower()` (ASCII). -/
def pyLower (l : List Char) : List Char := l.map Char.toLower

/-- Helper for the Python `in` substring test. -/
def hasSubstrAux (pat : List Char) : List Char → Bool
  | [] => pat.isEmpty
  | c :: t => pat.isPrefixOf (c :: t) || hasSubstrAux pat t

/-- Python `pat in s` substring containment. -/
def hasSubstr (s pat : String) : Bool := hasSubstrAux pat.data s.data

/-- Numeric value of a digit string (base-ten left fold). -/
def digitsToNat (cs : List Char) : ℕ :=
  cs.foldl (fun a c => a * 10 + (c.toNat - 48)) 0

/-- Python `float()` on a decimal literal containing a dot: an integer
part and a fractional part, both digit-only, not both empty. -/
def pyFloatDotted? (ip fp : List Char) : Option ℚ :=
  if fp.contains '.' then none
  else if ip.isEmpty && fp.isEmpty then none
  else if ip.all Char.isDigit && fp.all Char.isDigit then
    some ((digitsToNat ip : ℚ) + (digitsToNat fp : ℚ) / (10 : ℚ) ^ fp.length)
  else none

/-- Python `float()` on an unsigned decimal literal: digits with at most
one dot and at least one digit; anything else fails. -/
def pyFloatUnsigned? (cs : List Char) : Option ℚ :=
  if cs.contains '.' then
    pyFloatDotted? (cs.takeWhile (fun c => !(c == '.')))
      ((cs.dropWhile (fun c => !(c == '.'))).tail)
  else if cs.isEmpty then none
  else if cs.all Char.isDigit then some (digitsToNat cs) else none

/-- Python `float()` on a possibly signed decimal literal. -/
def pyFloat? (cs : List Char) : Option ℚ :=
  match cs with
  | [] => none
  | c :: rest =>
    if c = '-' then (pyFloatUnsigned? rest).map (fun q => -q)
    else if c = '+' then pyFloatUnsigned? rest
    else pyFloatUnsigned? (c :: rest)

/-! ### Lookback parsing (`parse_lookback_to_hours`, lines 98-122) -/

/-- Embedding of `parse_lookback_to_hours`. `none` models a
missing/NaN input; a failed `float()` call is the `none` branch of
`pyFloat?`, which the `try/except ValueError` turns into `0`. -/
def parse_lookback_to_hours (value : Option String) : ℚ :=
  match value with
  | none => 0
  | some s =>
    if s = "" then 0
    else
      let v := pyLower (pyStrip s.data)
      if v.getLast? = some 'd' then
        match pyFloat? v.dropLast with
        | some q => q * 24
        | none => 0
      else if v.getLast? = some 'h' then
        match pyFloat? v.dropLast with
        | some q => q
        | none => 0
      else
        match pyFloat? v with
        | some q => q
        | none => 0

/-- Restatement of the spec rule list (section 4.2) in its own words:
empty/missing/non-parseable map to `0`, a trimmed lower-cased string
ending in `d` maps to its numeric value times 24, ending in `h` to the
numeric value as-is, otherwise a direct numeric parse, any failure `0`. -/
def parse_lookback_spec (value : Option String) : ℚ :=
  match value with
  | none => 0
  | some s =>
    let v := pyLower (pyStrip s.data)
    if v.getLast? = some 'd' then ((pyFloat? v.dropLast).getD 0) * 24
    else if v.getLast? = some 'h' then (pyFloat? v.dropLast).getD 0
    else (pyFloat? v).getD 0

/-- C3: the lookback parser returns 0 for empty, missing or
non-parseable input, numeric value times 24 for strings ending in `d`,
the numeric value for strings ending in `h`, the directly parsed number
otherwise, and never raises (it is a total function agreeing everywhere
with the spec rule list); the spec's edge cases evaluate as stated. -/
theorem parse_lookback_correct :
    (∀ value, parse_lookback_to_hours value = parse_lookback_spec value) ∧
    parse_lookback_to_hours (some "7d") = 168 ∧
    parse_lookback_to_hours (some "6h") = 6 ∧
    parse_lookback_to_hours (some "24") = 24 ∧
    parse_lookback_to_hours none = 0 ∧
    parse_lookback_to_hours (some "") = 0 ∧
    parse_lookback_to_hours (some "abc") = 0 ∧
    parse_lookback_to_hours (some "30d") = 720 := by
  refine ⟨?_, ?_, ?_, ?_, rfl, rfl, rfl, ?_⟩
  · intro value
    cases value with
    | none => rfl
    | some s =>
      by_cases he : s = ""
      · subst he; rfl
      · simp only [parse_lookback_to_hours, parse_lookback_spec, if_neg he]
        by_cases hd : (pyLower (pyStrip s.data)).getLast? = some 'd'
        · simp only [if_pos hd]
          cases pyFloat? (pyLower (pyStrip s.data)).dropLast with
          | none => simp
          | some q => simp
        · simp only [if_neg hd]
          by_cases hh : (pyLower (pyStrip s.data)).getLast? = some 'h'
          · simp only [if_pos hh]
            cases pyFloat? (pyLower (pyStrip s.data)).dropLast with
            | none => simp
            | some q => simp
          · simp only [if_neg hh]
            cases pyFloat? (pyLower (pyStrip s.data)) with
            | none => simp
            | some q => simp
  · have h : parse_lookback_to_hours (some "7d") = ((7 : ℕ) : ℚ) * 24 := rfl
    rw [h]; norm_num
  · have h : parse_lookback_to_hours (some "6h") = ((6 : ℕ) : ℚ) := rfl
    rw [h]; norm_num
  · have h : parse_lookback_to_hours (some "24") = ((24 : ℕ) : ℚ) := rfl
    rw [h]; norm_num
  · have h : parse_lookback_to_hours (some "30d") = ((30 : ℕ) : ℚ) * 24 := rfl
    rw [h]; norm_num

/-- C9 counterexample: a signed vendor value parses to a negative
lookback, so `lookback_hours` is not non-negative for every input. -/
theorem parse_lookback_negative_counterexample :
    parse_lookback_to_hours (some "-5h") < 0 := by
  have h : parse_lookback_to_hours (some "-5h") = -((5 : ℕ) : ℚ) := rfl
  rw [h]; norm_num

/-- Dotted decimal parses are non-negative. -/
theorem pyFloatDotted_nonneg (ip fp : List Char) (q : ℚ)
    (h : pyFloatDotted? ip fp = some q) : 0 ≤ q := by
  unfold pyFloatDotted? at h
  split_ifs at h
  have hq := Option.some.inj h
  subst hq
  positivity

/-- Unsigned decimal parses are non-negative. -/
theorem pyFloatUnsigned_nonneg (cs : List Char) (q : ℚ)
    (h : pyFloatUnsigned? cs = some q) : 0 ≤ q := by
  unfold pyFloatUnsigned? at h
  split_ifs at h
  · exact pyFloatDotted_nonneg _ _ _ h
  · have hq := Option.some.inj h
    subst hq
    positivity

/-- A decimal parse whose first character is not a minus sign is
non-negative. -/
theorem pyFloat_nonneg (cs : List Char) (q : ℚ) (h : pyFloat? cs = some q)
    (hh : cs.head? ≠ some '-') : 0 ≤ q := by
  cases cs with
  | nil => simp [pyFloat?] at h
  | cons c rest =>
    have hc : ¬ c = '-' := fun e => hh (by simp [e])
    simp only [pyFloat?, if_neg hc] at h
    by_cases hp : c = '+'
    · rw [if_pos hp] at h; exact pyFloatUnsigned_nonneg _ _ h
    · rw [if_neg hp] at h; exact pyFloatUnsigned_nonneg _ _ h

/-- Dropping the last element either empties a list or keeps its head. -/
theorem dropLast_head_cases (l : List Char) :
    l.dropLast = [] ∨ l.dropLast.head? = l.head? := by
  match l with
  | [] => exact Or.inl rfl
  | [a] => exact Or.inl rfl
  | a :: b :: t => exact Or.inr rfl

/-- C9 amended: the derived `lookback_hours` is non-negative for missing
input and for every input string that does not begin, after trimming and
lower-casing, with a minus sign; a leading minus (for example `"-5h"`)
produces a negative value. -/
theorem parse_lookback_nonneg_amended :
    0 ≤ parse_lookback_to_hours none ∧
    ∀ s : String, (pyLower (pyStrip s.data)).head? ≠ some '-' →
      0 ≤ parse_lookback_to_hours (some s) := by
  refine ⟨le_refl 0, ?_⟩
  intro s hs
  simp only [parse_lookback_to_hours]
  by_cases he : s = ""
  · simp [he]
  · rw [if_neg he]
    by_cases hd : (pyLower (pyStrip s.data)).getLast? = some 'd'
    · rw [if_pos hd]
      cases hq : pyFloat? (pyLower (pyStrip s.data)).dropLast with
      | none => exact le_refl 0
      | some q =>
        have h0 : 0 ≤ q := by
          rcases dropLast_head_cases (pyLower (pyStrip s.data)) with h | h
          · rw [h] at hq; exact absurd hq (by simp [pyFloat?])
          · exact pyFloat_nonneg _ _ hq (by rw [h]; exact hs)
        exact mul_nonneg h0 (by norm_num)
    · rw [if_neg hd]
      by_cases hh : (pyLower (pyStrip s.data)).getLast? = some 'h'
      · rw [if_pos hh]
        cases hq : pyFloat? (pyLower (pyStrip s.data)).dropLast with
        | none => exact le_refl 0
        | some q =>
          rcases dropLast_head_cases (pyLower (pyStrip s.data)) with h | h
          · rw [h] at hq; exact absurd hq (by simp [pyFloat?])
          · exact pyFloat_nonneg _ _ hq (by rw [h]; exact hs)
      · rw [if_neg hh]
        cases hq : pyFloat? (pyLower (pyStrip s.data)) with
        | none => exact le_refl 0
        | some q => exact pyFloat_nonneg _ _ hq hs

/-- C9 amended witness: the hypothesis holds for `"7d"` and the amended
theorem applies there. -/
theorem parse_lookback_nonneg_witness :
    (pyLower (pyStrip "7d".data)).head? ≠ some '-' ∧
    0 ≤ parse_lookback_to_hours (some "7d") :=
  ⟨by decide, parse_lookback_nonneg_amended.2 "7d" (by decide)⟩

/-! ### Kikoff flagging rules (`apply_kikoff_flagging_rules`, lines 298-325)

A record is modelled by its three normalized fields, which are the only
ones the three rule masks read. -/

/-- Agencies authorized for view-through attribution (module constant). -/
def VTA_AUTHORIZED_AGENCIES : List String := ["adperiomedia", "globalwidemedia"]

/-- Attribution window limit for impressions, in hours. -/
def VTA_WINDOW_HOURS : ℚ := 6

/-- Attribution window limit for clicks, in days. -/
def CTA_WINDOW_DAYS : ℚ := 7

/-- Normalized view of one delivered event, as read by the rule masks. -/
structure KikoffRecord where
  agency_normalized : String
  touch_type_normalized : String
  lookback_hours : ℚ

/-- Rule 1 mask: impression attribution from a non-authorized agency. -/
def mask_unauthorized_vta (r : KikoffRecord) : Bool :=
  (r.touch_type_normalized == "impression") &&
    !(VTA_AUTHORIZED_AGENCIES.contains r.agency_normalized)

/-- Rule 2 mask: impression from an authorized agency beyond the VTA
window. -/
def mask_vta_window (r : KikoffRecord) : Bool :=
  (r.touch_type_normalized == "impression") &&
    (VTA_AUTHORIZED_AGENCIES.contains r.agency_normalized) &&
    decide (VTA_WINDOW_HOURS < r.lookback_hours)

/-- Rule 3 mask: click attribution beyond the CTA window. -/
def mask_cta_window (r : KikoffRecord) : Bool :=
  (r.touch_type_normalized == "click") &&
    decide (CTA_WINDOW_DAYS * 24 < r.lookback_hours)

/-- C2: the three Variant-A predicate masks are pairwise disjoint, so at
most one of them is true of any record and the sequential
mask-and-overwrite application has no precedence ambiguity. -/
theorem kikoff_masks_pairwise_disjoint (r : KikoffRecord) :
    (mask_unauthorized_vta r && mask_vta_window r) = false ∧
    (mask_unauthorized_vta r && mask_cta_window r) = false ∧
    (mask_vta_window r && mask_cta_window r) = false := by
  unfold mask_unauthorized_vta mask_vta_window mask_cta_window
  by_cases ht : r.touch_type_normalized = "impression"
  · have hcl : (r.touch_type_normalized == "click") = false := by
      rw [ht]; rfl
    cases ha : VTA_AUTHORIZED_AGENCIES.contains r.agency_normalized <;>
      simp [ht, hcl, ha]
  · have hi : (r.touch_type_normalized == "impression") = false :=
      beq_eq_false_iff_ne.mpr ht
    simp [hi]

/-! ### Fraud-set deduplication (`process_kikoff_app` lines 808-837 and
`apply_grant_addl_fraud_rules` lines 372-407)

A pandas DataFrame is a `Frame`: its column-name list and its rows, each
row a list of column/value bindings. A missing binding in a row models a
NaN cell, which `astype(str)` renders as `"nan"`. Column names arrive
already normalized (lower-cased, underscored) by `pull_all_reports`;
indexing a column absent from `cols` raises `KeyError`, modelled with
`Except`. -/

/-- One DataFrame row: column/value bindings. -/
abbrev Row := List (String × String)

/-- A DataFrame: column names plus rows. -/
structure Frame where
  cols : List String
  rows : List Row
deriving DecidableEq

/-- Value of a cell under `astype(str)`: a NaN cell prints as `"nan"`. -/
def cellStr (r : Row) (c : String) : String :=
  match r.lookup c with
  | some v => v
  | none => "nan"

/-- Composite match key, `customer_id + "_" + appsflyer_id`. -/
def matchKey (r : Row) (c a : String) : String :=
  cellStr r c ++ "_" ++ cellStr r a

/-- Column resolution loop of the dedup step: scan all candidate-set
columns, remembering the last one containing `customer` and `id`, and
the last one containing `appsflyer` and `id`. -/
def findIdCols (cols : List String) : Option String × Option String :=
  cols.foldl
    (fun acc col =>
      (if hasSubstr col "customer" && hasSubstr col "id" then some col else acc.1,
       if hasSubstr col "appsflyer" && hasSubstr col "id" then some col else acc.2))
    (none, none)

/-- Body of the dedup step once column resolution has run: with both id
columns resolved, the resolved names index the fraud set — raising
`KeyError` when absent there — and every candidate row whose composite
key occurs among the fraud keys is removed; with either column
unresolved, the candidate set passes through unchanged. -/
def dedupeResolved (cand fraud : Frame) : Option String → Option String → Except String Frame
  | some c, some a =>
    if fraud.cols.contains c && fraud.cols.contains a then
      .ok ⟨cand.cols,
        cand.rows.filter (fun r =>
          !((fraud.rows.map (fun fr => matchKey fr c a)).contains (matchKey r c a)))⟩
    else .error "KeyError"
  | _, _ => .ok cand

/-- Embedding of the P360 dedup step: skipped when either input is
empty, otherwise resolves the id columns in the candidate set and runs
the dedup body. -/
def dedupe (cand fraud : Frame) : Except String Frame :=
  if cand.rows.isEmpty || fraud.rows.isEmpty then .ok cand
  else dedupeResolved cand fraud (findIdCols cand.cols).1 (findIdCols cand.cols).2

/-- Candidate set whose id columns resolve but are absent from the
fraud set. -/
def cexCandidateFrame : Frame :=
  ⟨["customer_user_id", "appsflyer_id"],
    [[("customer_user_id", "u1"), ("appsflyer_id", "af1")]]⟩

/-- Non-empty fraud set lacking both id columns. -/
def cexFraudFrame : Frame := ⟨["event_time"], [[("event_time", "t1")]]⟩

/-- C5 counterexample: when the id columns resolve in the candidate set
but are absent from a non-empty fraud set, the dedup step raises a
`KeyError` instead of silently returning the candidate set unmodified. -/
theorem dedupe_missing_fraud_cols_raises :
    dedupe cexCandidateFrame cexFraudFrame = .error "KeyError" := rfl

/-- C5 amended: resolution is only checked in the candidate set — if
either id field cannot be resolved there, the deduplicator performs no
removal and returns the candidate set unmodified without error; but if
both resolve in the candidate set while absent from a non-empty fraud
set, a `KeyError` is raised. -/
theorem dedupe_unresolved_candidate_noop (cand fraud : Frame)
    (h : (findIdCols cand.cols).1 = none ∨ (findIdCols cand.cols).2 = none) :
    dedupe cand fraud = .ok cand := by
  unfold dedupe
  by_cases h1 : (cand.rows.isEmpty || fraud.rows.isEmpty) = true
  · rw [if_pos h1]
  · rw [if_neg h1]
    rcases hc : (findIdCols cand.cols).1 with _ | c
    · rcases ha : (findIdCols cand.cols).2 with _ | a <;> rfl
    · rcases ha : (findIdCols cand.cols).2 with _ | a
      · rfl
      · exfalso
        rcases h with h | h
        · rw [hc] at h; exact Option.noConfusion h
        · rw [ha] at h; exact Option.noConfusion h

/-- Candidate set with no resolvable id columns. -/
def wNoIdCandFrame : Frame := ⟨["event_name"], [[("event_name", "x")]]⟩

/-- Fraud set used by the C5 witness. -/
def wNoIdFraudFrame : Frame := ⟨["event_name"], [[("event_name", "y")]]⟩

/-- C5 amended witness: a candidate set with no resolvable id columns
passes through the dedup step unchanged. -/
theorem dedupe_unresolved_witness :
    (findIdCols wNoIdCandFrame.cols).1 = none ∧
    dedupe wNoIdCandFrame wNoIdFraudFrame = .ok wNoIdCandFrame :=
  ⟨by decide, dedupe_unresolved_candidate_noop _ _ (Or.inl (by decide))⟩

/-- C6: the dedup step is idempotent — applying it a second time with
the same fraud set (sequenced through its error monad) changes nothing. -/
theorem dedupe_idempotent (cand fraud : Frame) :
    (dedupe cand fraud).bind (fun c2 => dedupe c2 fraud) = dedupe cand fraud := by
  by_cases h1 : (cand.rows.isEmpty || fraud.rows.isEmpty) = true
  · have hd : dedupe cand fraud = .ok cand := by unfold dedupe; rw [if_pos h1]
    rw [hd]
    show dedupe cand fraud = Except.ok cand
    exact hd
  · rcases hc : (findIdCols cand.cols).1 with _ | c
    · have hd : dedupe cand fraud = .ok cand := by
        unfold dedupe
        rw [if_neg h1, hc]
        rcases (findIdCols cand.cols).2 with _ | a <;> rfl
      rw [hd]
      show dedupe cand fraud = Except.ok cand
      exact hd
    · rcases ha : (findIdCols cand.cols).2 with _ | a
      · have hd : dedupe cand fraud = .ok cand := by
          unfold dedupe
          rw [if_neg h1, hc, ha]
          rfl
        rw [hd]
        show dedupe cand fraud = Except.ok cand
        exact hd
      · by_cases h2 : (fraud.cols.contains c && fraud.cols.contains a) = true
        · have hd : dedupe cand fraud = .ok ⟨cand.cols,
              cand.rows.filter (fun r =>
                !((fraud.rows.map (fun fr => matchKey fr c a)).contains
                  (matchKey r c a)))⟩ := by
            unfold dedupe
            rw [if_neg h1, hc, ha]
            simp only [dedupeResolved]
            rw [if_pos h2]
          rw [hd]
          show dedupe ⟨cand.cols, cand.rows.filter (fun r =>
              !((fraud.rows.map (fun fr => matchKey fr c a)).contains
                (matchKey r c a)))⟩ fraud = _
          unfold dedupe
          by_cases h3 : ((cand.rows.filter (fun r =>
              !((fraud.rows.map (fun fr => matchKey fr c a)).contains
                (matchKey r c a)))).isEmpty || fraud.rows.isEmpty) = true
          · rw [if_pos h3]
          · rw [if_neg h3]
            show dedupeResolved _ fraud (findIdCols cand.cols).1 (findIdCols cand.cols).2 = _
            rw [hc, ha]
            simp only [dedupeResolved]
            rw [if_pos h2]
            rw [List.filter_filter]
            simp only [Bool.and_self]
        · have hd : dedupe cand fraud = .error "KeyError" := by
            unfold dedupe
            rw [if_neg h1, hc, ha]
            simp only [dedupeResolved]
            rw [if_neg h2]
          rw [hd]
          rfl

/-! ### Grant additional-fraud rule 1 (`apply_grant_addl_fraud_rules`,
lines 344-370) -/

/-- Ordered candidate names for the event-value column. -/
def EVENT_VALUE_CANDIDATES : List String := ["event_value", "event_revenue", "revenue"]

/-- First candidate column present in a column list (`for`/`break`). -/
def firstPresent (cands cols : List String) : Option String :=
  match cands with
  | [] => none
  | c :: t => if cols.contains c then some c else firstPresent t cols

/-- String form of an event-value cell: `fillna("")` turns a NaN cell
into the empty string before `astype(str)`. -/
def eventValueStr (r : Row) (evc : String) : String := (r.lookup evc).getD ""

/-- Rule-1 stage of `apply_grant_addl_fraud_rules`: an empty input or an
unresolvable event-value column yields an empty frame; otherwise keep
exactly the rows whose value string does not contain `"00\x7d"`. -/
def apply_grant_rule1 (df : Frame) : Frame :=
  if df.rows.isEmpty then ⟨[], []⟩
  else
    match firstPresent EVENT_VALUE_CANDIDATES df.cols with
    | none => ⟨[], []⟩
    | some evc =>
      ⟨df.cols, df.rows.filter (fun r => !(hasSubstr (eventValueStr r evc) "00\x7d"))⟩

/-- C7: a Variant-B record is an additional-fraud candidate exactly when
the string form of its event value does not contain the substring
`"00\x7d"`; in particular a `"$1.00\x7d"` value is excluded and a
`"$1.50"` value is kept. -/
theorem grant_value_mask_characterization :
    (∀ (df : Frame) (evc : String),
      firstPresent EVENT_VALUE_CANDIDATES df.cols = some evc →
      df.rows.isEmpty = false →
      ∀ r, r ∈ (apply_grant_rule1 df).rows ↔
        (r ∈ df.rows ∧ hasSubstr (eventValueStr r evc) "00\x7d" = false)) ∧
    hasSubstr "$1.00\x7d" "00\x7d" = true ∧
    hasSubstr "$1.50" "00\x7d" = false ∧
    (apply_grant_rule1 ⟨["event_value"],
        [[("event_value", "$1.00\x7d")], [("event_value", "$1.50")]]⟩).rows
      = [[("event_value", "$1.50")]] := by
  refine ⟨?_, rfl, rfl, rfl⟩
  intro df evc hcol hemp r
  unfold apply_grant_rule1
  rw [if_neg (by rw [hemp]; exact Bool.false_ne_true), hcol]
  simp only [List.mem_filter, Bool.not_eq_true']

/-- Frame used by the C7 witness. -/
def wGrantFrame : Frame :=
  ⟨["event_value"], [[("event_value", "$1.00\x7d")], [("event_value", "$1.50")]]⟩

/-- C7 witness: the characterization applies to a concrete frame and
row, whose kept/dropped status matches the substring test. -/
theorem grant_value_mask_witness :
    firstPresent EVENT_VALUE_CANDIDATES wGrantFrame.cols = some "event_value" ∧
    wGrantFrame.rows.isEmpty = false ∧
    ([("event_value", "$1.50")] ∈ (apply_grant_rule1 wGrantFrame).rows ↔
      ([("event_value", "$1.50")] ∈ wGrantFrame.rows ∧
        hasSubstr (eventValueStr [("event_value", "$1.50")] "event_value") "00\x7d"
          = false)) :=
  ⟨by decide, by decide,
    grant_value_mask_characterization.1 wGrantFrame "event_value"
      (by decide) (by decide) [("event_value", "$1.50")]⟩

/-- C10: a Variant-B record whose event value is missing (a NaN cell)
stringifies to the empty string, which does not contain `"00\x7d"`, so
the record is kept as an additional-fraud candidate. -/
theorem grant_missing_value_is_candidate :
    (∀ (df : Frame) (evc : String) (r : Row),
      firstPresent EVENT_VALUE_CANDIDATES df.cols = some evc →
      df.rows.isEmpty = false →
      r ∈ df.rows → r.lookup evc = none →
      r ∈ (apply_grant_rule1 df).rows) ∧
    eventValueStr [] "event_value" = "" ∧
    hasSubstr "" "00\x7d" = false := by
  refine ⟨?_, rfl, rfl⟩
  intro df evc r hcol hemp hr hmiss
  unfold apply_grant_rule1
  rw [if_neg (by rw [hemp]; exact Bool.false_ne_true), hcol]
  refine List.mem_filter.mpr ⟨hr, ?_⟩
  have hv : eventValueStr r evc = "" := by
    unfold eventValueStr
    rw [hmiss]
    rfl
  rw [hv]
  rfl

/-- Frame with one row whose event-value cell is missing (NaN). -/
def wMissingValueFrame : Frame := ⟨["event_value"], [[("af_id", "k1")]]⟩

/-- C10 witness: a concrete row with a NaN event value is kept. -/
theorem grant_missing_value_witness :
    firstPresent EVENT_VALUE_CANDIDATES wMissingValueFrame.cols = some "event_value" ∧
    ([("af_id", "k1")] : Row).lookup "event_value" = none ∧
    [("af_id", "k1")] ∈ (apply_grant_rule1 wMissingValueFrame).rows :=
  ⟨by decide, by decide,
    grant_missing_value_is_candidate.1 wMissingValueFrame "event_value"
      [("af_id", "k1")] (by decide) (by decide) (by decide) (by decide)⟩

/-! ### Agency aggregation (`aggregate_by_agency`, lines 430-465, and
the excluded-agency pre-filter, lines 940-970)

Event sets reach aggregation with their agency already normalized, so an
event set is modelled by its list of `agency_normalized` values. -/

/-- Agencies removed from all Grant event sets before aggregation. -/
def GRANT_EXCLUDED_AGENCIES : List String := ["mobiprobebd521", "unknown", ""]

/-- Insertion step of a comparison sort (`le y x` keeps `y` first). -/
def insertBy {α : Type} (le : α → α → Bool) (x : α) : List α → List α
  | [] => [x]
  | y :: t => if le y x then y :: insertBy le x t else x :: y :: t

/-- Comparison sort used to model `sort_values`. -/
def sortBy {α : Type} (le : α → α → Bool) : List α → List α
  | [] => []
  | x :: t => insertBy le x (sortBy le t)

/-- Inserting permutes to consing. -/
theorem insertBy_perm {α : Type} (le : α → α → Bool) (x : α) (l : List α) :
    (insertBy le x l).Perm (x :: l) := by
  induction l with
  | nil => exact List.Perm.refl _
  | cons y t ih =>
    unfold insertBy
    by_cases h : le y x = true
    · rw [if_pos h]
      exact (ih.cons y).trans (List.Perm.swap x y t)
    · rw [if_neg h]

/-- Sorting permutes the input. -/
theorem sortBy_perm {α : Type} (le : α → α → Bool) (l : List α) :
    (sortBy le l).Perm l := by
  induction l with
  | nil => exact List.Perm.refl _
  | cons x t ih => exact (insertBy_perm le x (sortBy le t)).trans (ih.cons x)

/-- Embedding of `aggregate_by_agency`: drop `"unknown"` agencies, group
the rest by agency with one count per group, sort by count descending. -/
def aggregate_by_agency (agencies : List String) : List (String × ℕ) :=
  sortBy (fun p q => decide (q.2 ≤ p.2))
    (((agencies.filter (fun a => !(a == "unknown"))).dedup).map
      (fun a => (a, (agencies.filter (fun a2 => !(a2 == "unknown"))).count a)))

/-- Excluded-agency pre-filter applied by the orchestrator before
aggregation (`~isin(excluded)`). -/
def excludeAgencies (excluded agencies : List String) : List String :=
  agencies.filter (fun a => !(excluded.contains a))

/-- C4: for any event set fed through the excluded-agency pre-filter
into the aggregator, the per-agency counts sum to the number of input
records whose normalized agency is neither `"unknown"` nor excluded;
every emitted row carries a non-unknown, non-excluded agency with its
exact input count, and every such agency in the input is emitted. -/
theorem aggregate_total_invariant (excluded agencies : List String) :
    (((aggregate_by_agency (excludeAgencies excluded agencies)).map Prod.snd).sum
      = (agencies.filter
          (fun a => !(a == "unknown") && !(excluded.contains a))).length) ∧
    (∀ p, p ∈ aggregate_by_agency (excludeAgencies excluded agencies) →
      (p.1 == "unknown") = false ∧ excluded.contains p.1 = false ∧
        p.2 = agencies.count p.1) ∧
    (∀ a, a ∈ agencies → (a == "unknown") = false → excluded.contains a = false →
      (a, agencies.count a) ∈ aggregate_by_agency (excludeAgencies excluded agencies)) := by
  have hff : (excludeAgencies excluded agencies).filter (fun a => !(a == "unknown"))
      = agencies.filter (fun a => !(a == "unknown") && !(excluded.contains a)) := by
    unfold excludeAgencies
    rw [List.filter_filter]
  refine ⟨?_, ?_, ?_⟩
  · unfold aggregate_by_agency
    rw [((sortBy_perm _ _).map Prod.snd).sum_eq, List.map_map]
    rw [show (Prod.snd ∘ fun a =>
        (a, ((excludeAgencies excluded agencies).filter
          (fun a2 => !(a2 == "unknown"))).count a))
        = fun a => ((excludeAgencies excluded agencies).filter
          (fun a2 => !(a2 == "unknown"))).count a from rfl]
    rw [List.sum_map_count_dedup_eq_length, hff]
  · intro p hp
    have hp2 := (sortBy_perm _ _).mem_iff.mp hp
    obtain ⟨a, ha, rfl⟩ := List.mem_map.mp hp2
    have haf : a ∈ (excludeAgencies excluded agencies).filter
        (fun a2 => !(a2 == "unknown")) := List.mem_dedup.mp ha
    rw [hff] at haf
    have hmem := List.mem_filter.mp haf
    have hcond := hmem.2
    have hsplit := hcond
    rw [Bool.and_eq_true] at hsplit
    refine ⟨by simpa using hsplit.1, by simpa using hsplit.2, ?_⟩
    show ((excludeAgencies excluded agencies).filter
        (fun a2 => !(a2 == "unknown"))).count a = agencies.count a
    rw [hff]
    exact List.count_filter hcond
  · intro a hmem hunk hexc
    have hcond : (!(a == "unknown") && !(excluded.contains a)) = true := by
      rw [hunk, hexc]
      rfl
    have haf : a ∈ (excludeAgencies excluded agencies).filter
        (fun a2 => !(a2 == "unknown")) := by
      rw [hff]
      exact List.mem_filter.mpr ⟨hmem, hcond⟩
    have hcnt : ((excludeAgencies excluded agencies).filter
        (fun a2 => !(a2 == "unknown"))).count a = agencies.count a := by
      rw [hff]
      exact List.count_filter hcond
    refine (sortBy_perm _ _).mem_iff.mpr ?_
    rw [← hcnt]
    exact List.mem_map_of_mem _ (List.mem_dedup.mpr haf)

/-- C4 witness: the invariant applies to a concrete Grant event set with
repeated, unknown and excluded agencies. -/
theorem aggregate_total_witness :
    ("acme", ["acme", "acme", "unknown", "mobiprobebd521", "bravo"].count "acme")
      ∈ aggregate_by_agency (excludeAgencies GRANT_EXCLUDED_AGENCIES
          ["acme", "acme", "unknown", "mobiprobebd521", "bravo"]) :=
  (aggregate_total_invariant GRANT_EXCLUDED_AGENCIES
      ["acme", "acme", "unknown", "mobiprobebd521", "bravo"]).2.2
    "acme" (by decide) (by decide) (by decide)

/-! ### Summary assembly (`process_kikoff_app` lines 849-887 and
`process_grant_app` lines 982-1020)

Both programs left-join the three per-agency aggregates on agency,
treat missing matches as 0, compute `net_valid` and the two rates,
and sort by delivered count descending. -/

/-- Python `round` in exact rational arithmetic: nearest integer,
ties to even. -/
def roundHalfEven (q : ℚ) : ℤ :=
  if q - Rat.floor q < 1/2 then Rat.floor q
  else if (1/2 : ℚ) < q - Rat.floor q then Rat.floor q + 1
  else if Rat.floor q % 2 = 0 then Rat.floor q else Rat.floor q + 1

/-- Python `round(x, 1)` in exact rational arithmetic. -/
def pyRound1 (q : ℚ) : ℚ := (roundHalfEven (q * 10) : ℚ) / 10

/-- One row of a program's Summary Table. -/
structure SummaryRow where
  agency : String
  delivered : ℤ
  fraud : ℤ
  flagged : ℤ
  net_valid : ℤ
  fraud_rate_pct : ℚ
  flag_rate_pct : ℚ

instance : Inhabited SummaryRow := ⟨⟨"", 0, 0, 0, 0, 0, 0⟩⟩

/-- Embedding of the summary assembly: one row per delivered-aggregate
agency, fraud/flagged counts looked up with default 0 (the left join
plus `fillna(0)`), `net_valid = delivered - fraud - flagged`, each rate
`round(count/delivered*100, 1)` guarded to 0 when delivered is 0, rows
sorted by delivered descending. -/
def build_summary (delivered fraud flagged : List (String × ℕ)) : List SummaryRow :=
  sortBy (fun r s => decide (s.delivered ≤ r.delivered))
    (delivered.map (fun p =>
      { agency := p.1,
        delivered := (p.2 : ℤ),
        fraud := (((fraud.lookup p.1).getD 0 : ℕ) : ℤ),
        flagged := (((flagged.lookup p.1).getD 0 : ℕ) : ℤ),
        net_valid := (p.2 : ℤ) - (((fraud.lookup p.1).getD 0 : ℕ) : ℤ)
          - (((flagged.lookup p.1).getD 0 : ℕ) : ℤ),
        fraud_rate_pct := if 0 < (p.2 : ℤ) then
            pyRound1 (((((fraud.lookup p.1).getD 0 : ℕ) : ℤ) : ℚ)
              / ((p.2 : ℤ) : ℚ) * 100)
          else 0,
        flag_rate_pct := if 0 < (p.2 : ℤ) then
            pyRound1 (((((flagged.lookup p.1).getD 0 : ℕ) : ℤ) : ℚ)
              / ((p.2 : ℤ) : ℚ) * 100)
          else 0 }))

/-- C1: every Summary row satisfies
`net_valid = delivered - fraud - flagged` in exact integer arithmetic,
and the value is not clamped at zero — the concrete instance ends
negative. -/
theorem summary_net_valid_arithmetic :
    (∀ delivered fraud flagged, ∀ r ∈ build_summary delivered fraud flagged,
      r.net_valid = r.delivered - r.fraud - r.flagged) ∧
    (build_summary [("acme", 1)] [("acme", 2)] []).map
      (fun r => r.net_valid) = [-1] := by
  constructor
  · intro delivered fraud flagged r hr
    unfold build_summary at hr
    have hr2 := (sortBy_perm _ _).mem_iff.mp hr
    obtain ⟨p, hp, rfl⟩ := List.mem_map.mp hr2
    rfl
  · rfl

/-- C1 witness: the arithmetic law applies to the head row of a
concrete summary. -/
theorem summary_net_valid_witness :
    ((build_summary [("acme", 3)] [("acme", 1)] [("acme", 1)]).headI).net_valid
      = ((build_summary [("acme", 3)] [("acme", 1)] [("acme", 1)]).headI).delivered
        - ((build_summary [("acme", 3)] [("acme", 1)] [("acme", 1)]).headI).fraud
        - ((build_summary [("acme", 3)] [("acme", 1)] [("acme", 1)]).headI).flagged :=
  summary_net_valid_arithmetic.1 [("acme", 3)] [("acme", 1)] [("acme", 1)]
    _ (List.Mem.head _)

/-- C8: every Summary row's rates are the corresponding count divided by
the delivered count times 100, rounded to one decimal, and exactly 0
when the delivered count is 0 (the guard, not a division, handles that
case). -/
theorem summary_rate_formulas (delivered fraud flagged : List (String × ℕ)) :
    ∀ r ∈ build_summary delivered fraud flagged,
      (r.delivered = 0 → r.fraud_rate_pct = 0 ∧ r.flag_rate_pct = 0) ∧
      (0 < r.delivered →
        r.fraud_rate_pct = pyRound1 ((r.fraud : ℚ) / (r.delivered : ℚ) * 100) ∧
        r.flag_rate_pct = pyRound1 ((r.flagged : ℚ) / (r.delivered : ℚ) * 100)) := by
  intro r hr
  unfold build_summary at hr
  have hr2 := (sortBy_perm _ _).mem_iff.mp hr
  obtain ⟨p, hp, rfl⟩ := List.mem_map.mp hr2
  constructor
  · intro h0
    have hneg : ¬ (0 < ((p.2 : ℕ) : ℤ)) := fun hlt => (ne_of_gt hlt) h0
    exact ⟨if_neg hneg, if_neg hneg⟩
  · intro hpos
    exact ⟨if_pos hpos, if_pos hpos⟩

/-- C8 witness: the rate formulas apply to the head row of a concrete
summary with nonzero delivered count. -/
theorem summary_rate_witness :
    0 < ((build_summary [("acme", 4)] [("acme", 1)] [("acme", 2)]).headI).delivered ∧
    ((build_summary [("acme", 4)] [("acme", 1)] [("acme", 2)]).headI).fraud_rate_pct
      = pyRound1
        ((((build_summary [("acme", 4)] [("acme", 1)] [("acme", 2)]).headI).fraud : ℚ)
          / (((build_summary [("acme", 4)] [("acme", 1)] [("acme", 2)]).headI).delivered : ℚ)
          * 100) :=
  ⟨by decide,
    ((summary_rate_formulas [("acme", 4)] [("acme", 1)] [("acme", 2)]
      _ (List.Mem.head _)).2 (by decide)).1⟩

end AttributionReport
